import Mathlib

/-!
# Verification of the tachyon-rs request-dispatch core

A shallow embedding of the tachyon-rs HTTP engine (crates `tachyon_core`
and the napi binding) and proofs about its route matcher, tiered route
resolution, hot cache, snapshot registration and response construction.

Byte strings are modelled as `List Nat` (each element a byte value); Rust
`u64` arithmetic is `Nat` arithmetic reduced `% 2^64`; fallible or
panicking Rust paths are modelled with `Option`.
-/

namespace Tachyon

/-- Byte value of the ASCII colon separator. -/
def COLON : Nat := 58

/-- Byte value of the ASCII slash path separator. -/
def SLASH : Nat := 47

/-- Bytes of a (ASCII) string literal, as the source's `as_bytes()`. -/
def strBytes (s : String) : List Nat := s.toList.map Char.toNat

/-- Rust `slice::split` on a separator byte: always yields at least one
(possibly empty) segment, and a trailing separator yields a trailing
empty segment.  Embeds the `split(|&b| b == b'/')` calls in
`utils.rs::route_matches`. -/
def splitSeg (c : Nat) : List Nat → List (List Nat)
  | [] => [[]]
  | b :: rest =>
    if b = c then [] :: splitSeg c rest
    else
      match splitSeg c rest with
      | s :: ss => (b :: s) :: ss
      | [] => [[b]]

/-- `route_matches`'s test for a parameter segment: non-empty and starting
with `b':'` (`!pattern_seg.is_empty() && pattern_seg[0] == b':'`). -/
def isParamSeg (s : List Nat) : Bool :=
  !s.isEmpty && s.headD 0 = COLON

/-- The pairwise segment loop of `utils.rs::route_matches`: a parameter
pattern segment matches any non-empty candidate segment, any other
pattern segment must be byte-equal, and both iterators must exhaust
together. -/
def matchSegs : List (List Nat) → List (List Nat) → Bool
  | [], [] => true
  | p :: ps, a :: as =>
    if isParamSeg p then
      if a.isEmpty then false else matchSegs ps as
    else if p = a then matchSegs ps as
    else false
  | _, _ => false

/-- Embedding of `utils.rs::route_matches(route_pattern, actual_route)`:
the 50-byte length-difference fail-fast, the method-separator search and
prefix comparison, the exact-path fast path, the no-parameter fast
reject, and the segment loop. -/
def route_matches (pattern actual : List Nat) : Bool :=
  if 50 < Nat.dist pattern.length actual.length then false
  else
    match pattern.findIdx? (fun b => b = COLON),
          actual.findIdx? (fun b => b = COLON) with
    | some pc, some ac =>
      if pc ≠ ac ∨ pattern.take pc ≠ actual.take ac then false
      else
        let pp := pattern.drop (pc + 1)
        let ap := actual.drop (ac + 1)
        if pp = ap then true
        else if !pp.contains COLON then false
        else matchSegs (splitSeg SLASH pp) (splitSeg SLASH ap)
    | _, _ => false

/-- The closed method enum of `methods.rs`. -/
inductive Method : Type
  | get | post | put | delete | patch
  deriving DecidableEq

/-- `Method::id` from `methods.rs`. -/
def Method.id : Method → Nat
  | .get => 0
  | .post => 1
  | .put => 2
  | .delete => 3
  | .patch => 4

/-- The hyper request methods that can reach the dispatcher (the standard
HTTP methods hyper parses). -/
inductive HyperMethod : Type
  | GET | POST | PUT | DELETE | PATCH
  | HEAD | OPTIONS | CONNECT | TRACE
  deriving DecidableEq

/-- Embedding of `impl From<&hyper::Method> for Method` in `methods.rs`:
the five supported methods convert, every other method hits
`panic!("Invalid method")`, modelled as `none`. -/
def methodFromHyper : HyperMethod → Option Method
  | .GET => some .get
  | .POST => some .post
  | .PUT => some .put
  | .DELETE => some .delete
  | .PATCH => some .patch
  | _ => none

/-- `u64` range for the FNV-1a hash arithmetic. -/
def U64 : Nat := 2 ^ 64

/-- One FNV-1a step: `hash ^= byte; hash = hash.wrapping_mul(0x100000001b3)`. -/
def fnvStep (h b : Nat) : Nat := ((h ^^^ b) * 0x100000001b3) % U64

/-- `fast_hash` from `tachyon.rs` (identical to `HotCache::hash` in
`cache.rs` and `fast_hash` in the napi crate): FNV-1a over the key
bytes, 64-bit wrapping. -/
def fast_hash (key : List Nat) : Nat := key.foldl fnvStep 0xcbf29ce484222325

/-- First-match association lookup, the model of a hash-map `get`
(iteration/storage order of the Rust maps is the list order). -/
def lookupA {κ α : Type} [DecidableEq κ] (k : κ) : List (κ × α) → Option α
  | [] => none
  | (k', v) :: rest => if k' = k then some v else lookupA k rest

/-- Hash-map `insert`: replaces the value of an existing key in place,
otherwise appends the new binding. -/
def insertA {κ α : Type} [DecidableEq κ] (k : κ) (v : α) :
    List (κ × α) → List (κ × α)
  | [] => [(k, v)]
  | (k', v') :: rest =>
    if k' = k then (k, v) :: rest else (k', v') :: insertA k v rest

/-- Hash-map `remove`: drops the first binding of the key. -/
def removeA {κ α : Type} [DecidableEq κ] (k : κ) :
    List (κ × α) → List (κ × α)
  | [] => []
  | (k', v') :: rest => if k' = k then rest else (k', v') :: removeA k rest

/-! ## Hot cache (`cache.rs`) -/

/-- `cache.rs::CacheEntry`: a handler plus its access counter
(`CacheEntry::new` starts the counter at 1). -/
structure CacheEntry (H : Type) where
  handler : H
  access_count : Nat
  deriving DecidableEq

/-- `CacheEntry::touch` applied to the first binding of a key in the
shard map (the counter increment done on a map hit). -/
def touchA {H : Type} (k : Nat) :
    List (Nat × CacheEntry H) → List (Nat × CacheEntry H)
  | [] => []
  | (k', e) :: rest =>
    if k' = k then (k', ⟨e.handler, e.access_count + 1⟩) :: rest
    else (k', e) :: touchA k rest

/-- `cache.rs::CacheShard`: the bounded hash→entry map plus the
lock-free single hot slot. -/
structure CacheShard (H : Type) where
  entries : List (Nat × CacheEntry H)
  hot_slot : Option (Nat × CacheEntry H)
  deriving DecidableEq

/-- The map half of `CacheShard::get`: look up under the read lock,
`touch` on a hit. -/
def CacheShard.getMap {H : Type} (s : CacheShard H) (hash : Nat) :
    Option H × CacheShard H :=
  match lookupA hash s.entries with
  | some e => (some e.handler, { s with entries := touchA hash s.entries })
  | none => (none, s)

/-- `CacheShard::get`: try the hot slot first (touch and return on a hash
match), then fall back to the map. -/
def CacheShard.get {H : Type} (s : CacheShard H) (hash : Nat) :
    Option H × CacheShard H :=
  match s.hot_slot with
  | some (h, e) =>
    if h = hash then
      (some e.handler,
        { s with hot_slot := some (h, ⟨e.handler, e.access_count + 1⟩) })
    else s.getMap hash
  | none => s.getMap hash

/-- `iter().min_by_key(access_count)` over the shard map: returns the
key and count of the first entry (in iteration order) attaining the
minimum access count; a later entry replaces the running minimum only
when strictly smaller. -/
def minByCount {H : Type} : List (Nat × CacheEntry H) → Option (Nat × Nat)
  | [] => none
  | (k, e) :: rest =>
    match minByCount rest with
    | none => some (k, e.access_count)
    | some (k', c') =>
      if c' < e.access_count then some (k', c') else some (k, e.access_count)

/-- `CacheShard::evict_lfu`: remove the entry with the lowest access
count (no-op on an empty map). -/
def evict_lfu {H : Type} (entries : List (Nat × CacheEntry H)) :
    List (Nat × CacheEntry H) :=
  match minByCount entries with
  | some (k, _) => removeA k entries
  | none => entries

/-- `MAX_ENTRIES_PER_SHARD` from `cache.rs`. -/
def MAX_ENTRIES_PER_SHARD : Nat := 128

/-- `NUM_SHARDS` from `cache.rs`. -/
def NUM_SHARDS : Nat := 32

/-- `CacheShard::insert`: publish the new pair in the hot slot, evict
one entry when the map is at capacity (`len >= MAX_ENTRIES_PER_SHARD`),
then insert the fresh entry (access count 1). -/
def CacheShard.insert {H : Type} (s : CacheShard H) (hash : Nat)
    (handler : H) : CacheShard H :=
  let ents :=
    if MAX_ENTRIES_PER_SHARD ≤ s.entries.length then evict_lfu s.entries
    else s.entries
  { hot_slot := some (hash, ⟨handler, 1⟩),
    entries := insertA hash ⟨handler, 1⟩ ents }

/-- `cache.rs::HotCache`: 32 shards plus the global hit/miss counters. -/
structure HotCacheState (H : Type) where
  shards : List (CacheShard H)
  hits : Nat
  misses : Nat
  deriving DecidableEq

/-- `HotCache::new`: 32 empty shards, zero counters. -/
def HotCacheState.empty (H : Type) : HotCacheState H :=
  ⟨List.replicate NUM_SHARDS ⟨[], none⟩, 0, 0⟩

/-- `HotCache::shard_index`: `hash & 31`, i.e. `hash % 32` since the
shard count is a power of two. -/
def shard_index (hash : Nat) : Nat := hash % NUM_SHARDS

/-- `HotCache::get`: hash the key, select the shard, delegate to the
shard, and bump the global hit or miss counter. -/
def HotCacheState.get {H : Type} (c : HotCacheState H) (route_key : List Nat) :
    Option H × HotCacheState H :=
  let hash := fast_hash route_key
  let idx := shard_index hash
  match c.shards.get? idx with
  | none => (none, c)
  | some sh =>
    match sh.get hash with
    | (some h, sh') =>
      (some h, ⟨c.shards.set idx sh', c.hits + 1, c.misses⟩)
    | (none, sh') =>
      (none, ⟨c.shards.set idx sh', c.hits, c.misses + 1⟩)

/-- `HotCache::set`: hash the key, select the shard, insert. -/
def HotCacheState.set {H : Type} (c : HotCacheState H) (route_key : List Nat)
    (handler : H) : HotCacheState H :=
  let hash := fast_hash route_key
  let idx := shard_index hash
  match c.shards.get? idx with
  | none => c
  | some sh => { c with shards := c.shards.set idx (sh.insert hash handler) }

/-! ## Registry, dispatcher and responses (`tachyon.rs`, `router.rs`,
`options.rs`) -/

/-- `router.rs::TachyonRouter`: a method id plus the stored handler. -/
structure TachyonRouter (H : Type) where
  method : Nat
  handler : H
  deriving DecidableEq

/-- `options.rs::ResponseData`. -/
structure ResponseData where
  data : List Nat
  status_code : Nat
  deriving DecidableEq

/-- The options handed to a handler
(`options.rs::TachyonOptions`), generic over the JSON value type `J`
(JSON parsing is an external collaborator). -/
structure TachyonOptions (J : Type) where
  body : Option J
  params : Option J

/-- The pieces of a hyper request the dispatcher reads: method, URI
path, content-type header bytes (if present) and collected body
bytes. -/
structure Request (J : Type) where
  method : HyperMethod
  path : List Nat
  content_type : Option (List Nat)
  body : List Nat

/-- The wire response as the dispatcher builds it: status plus the
content-type and content-length headers it sets and the body bytes. -/
structure Response where
  status : Nat
  content_type : List Nat
  content_length : Nat
  body : List Nat
  deriving DecidableEq

/-- `CONTENT_TYPE_JSON_BYTES` from `tachyon.rs` (also the content-type
header value set on every built response). -/
def CONTENT_TYPE_JSON_BYTES : List Nat := strBytes ("application/json")

/-- `NOTFOUND_BYTES` from `tachyon.rs`. -/
def NOTFOUND_BYTES : List Nat := strBytes ("\x7b\"error\":\"Not Found\"\x7d")

/-- `tachyon.rs::Tachyon`: the registry map, the atomic snapshot and
the hot cache (the thread-local caches are never read on the request
path and carry no observable state). -/
structure TachyonState (H : Type) where
  routes : List (List Nat × TachyonRouter H)
  snapshot : List (Nat × H)
  hot_cache : HotCacheState H

/-- The route-key builder `"<method-id>:<path>"` shared by registration
and dispatch; the dispatcher's 256-byte stack buffer and the heap
fallback produce the same bytes. -/
def buildRouteKey (methodId : Nat) (path : List Nat) : List Nat :=
  let methodBytes := [48 + methodId]
  let totalLen := methodBytes.length + 1 + path.length
  if totalLen ≤ 256 then methodBytes ++ COLON :: path
  else methodBytes ++ COLON :: path

/-- `Tachyon::register_route`: insert (key → router) into the registry
map, then clone the entire current snapshot, insert the new
hash→handler pair and publish the result as the new snapshot. -/
def register_route {H : Type} (s : TachyonState H) (m : Method)
    (path : List Nat) (handler : H) : TachyonState H :=
  let route_key := buildRouteKey m.id path
  let routes' := insertA route_key (TachyonRouter.mk m.id handler) s.routes
  let hash := fast_hash route_key
  let snapshot' := insertA hash handler s.snapshot
  { routes := routes', snapshot := snapshot', hot_cache := s.hot_cache }

/-- `Tachyon::find_route`: exact registry lookup first, then a linear
scan for the first registered pattern that `route_matches` the key. -/
def find_route {H : Type} (routes : List (List Nat × TachyonRouter H))
    (route_key : List Nat) : Option H :=
  match lookupA route_key routes with
  | some r => some r.handler
  | none =>
    (routes.find? (fun e => route_matches e.1 route_key)).map
      (fun e => e.2.handler)

/-- `Tachyon::parse_json_body_fast`, with the two JSON decoders
(simd-json, then the serde_json fallback) as external parameters:
requires a content-type header of at least 16 bytes whose first 16
bytes equal `application/json`, a collected body of at least 2 bytes,
and a successful decode; otherwise `none`. -/
def parse_json_body_fast {J : Type} (d1 d2 : List Nat → Option J)
    (content_type : Option (List Nat)) (body : List Nat) : Option J :=
  match content_type with
  | none => none
  | some ct =>
    if ct.length < 16 then none
    else if ct.take 16 = CONTENT_TYPE_JSON_BYTES then
      if body.length < 2 then none
      else
        match d1 body with
        | some v => some v
        | none => d2 body
    else none

/-- The body-carrying methods of `Tachyon::execute_handler`
(`POST | PUT | PATCH` on the hyper method). -/
def bodyMethod : HyperMethod → Bool
  | .POST | .PUT | .PATCH => true
  | _ => false

/-- `StatusCode::from_u16` of the external http crate, abstracted by its
acceptance set `valid` (hyper accepts exactly the codes 100..=999). -/
def statusCodeFromU16 (valid : Nat → Bool) (n : Nat) : Option Nat :=
  if valid n then some n else none

/-- `Tachyon::build_response_fast`: fast paths for 200 and 404, any
other code through `StatusCode::from_u16` with `unwrap_or(OK)`; sets
the JSON content-type header and a content-length header equal to the
payload length. -/
def build_response_fast (valid : Nat → Bool) (result : ResponseData) :
    Response :=
  let status :=
    if result.status_code = 200 then 200
    else if result.status_code = 404 then 404
    else (statusCodeFromU16 valid result.status_code).getD 200
  { status := status, content_type := CONTENT_TYPE_JSON_BYTES,
    content_length := result.data.length, body := result.data }

/-- `Tachyon::not_found_response`: the pre-built 404 with the fixed JSON
body and the static content-length `21`. -/
def not_found_response : Response :=
  { status := 404, content_type := CONTENT_TYPE_JSON_BYTES,
    content_length := 21, body := NOTFOUND_BYTES }

/-- `Tachyon::execute_handler`, with the opaque handler applied through
`apply`: parse the body only for POST/PUT/PATCH, invoke the handler
with `{ body, params: none }`, and wrap its `ResponseData`. -/
def execute_handler {H J : Type} (apply : H → TachyonOptions J → ResponseData)
    (valid : Nat → Bool) (d1 d2 : List Nat → Option J)
    (handler : H) (req : Request J) : Response :=
  let body :=
    if bodyMethod req.method then
      parse_json_body_fast d1 d2 req.content_type req.body
    else none
  build_response_fast valid (apply handler ⟨body, none⟩)

/-- `Tachyon::handle_request_fast`: convert the hyper method (`none`
models the `panic!("Invalid method")` arm — no response is ever
produced), build the route key, then try the snapshot, the hot cache
and the full registry in order; a layer-3 hit is written into the hot
cache before the response is produced, and a full miss yields the
canonical 404. -/
def handle_request_fast {H J : Type}
    (apply : H → TachyonOptions J → ResponseData) (valid : Nat → Bool)
    (d1 d2 : List Nat → Option J)
    (routes : List (List Nat × TachyonRouter H)) (snapshot : List (Nat × H))
    (hot_cache : HotCacheState H) (req : Request J) :
    Option (Response × HotCacheState H) :=
  match methodFromHyper req.method with
  | none => none
  | some m =>
    let route_key := buildRouteKey m.id req.path
    let route_hash := fast_hash route_key
    match lookupA route_hash snapshot with
    | some handler =>
      some (execute_handler apply valid d1 d2 handler req, hot_cache)
    | none =>
      match hot_cache.get route_key with
      | (some handler, cache') =>
        some (execute_handler apply valid d1 d2 handler req, cache')
      | (none, cache') =>
        match find_route routes route_key with
        | some h =>
          some (execute_handler apply valid d1 d2 h req,
            cache'.set route_key h)
        | none => some (not_found_response, cache')

/-! ## The napi binding layer (`napi/src/lib.rs`) -/

/-- `napi::CallbackEntry`: the stored JS callback plus its call
counter. -/
structure CallbackEntry (C : Type) where
  callback : C
  call_count : Nat
  deriving DecidableEq

/-- The napi `Tachyon`: the core engine plus the callback store
(hash → entry). -/
structure NapiState (H C : Type) where
  core : TachyonState H
  callbacks : List (Nat × CallbackEntry C)

/-- ASCII uppercasing of one byte, the effect of Rust's
`str::to_uppercase` on the ASCII method strings the binding receives. -/
def asciiUpper (b : Nat) : Nat := if 97 ≤ b ∧ b ≤ 122 then b - 32 else b

/-- `method.to_uppercase()` over the method bytes. -/
def toUpperBytes (s : List Nat) : List Nat := s.map asciiUpper

/-- The uppercased-method match of the napi `register_route`
(`"GET" | "POST" | "PUT" | "DELETE" | "PATCH"`, anything else is the
error arm). -/
def napiMethodToCore (mu : List Nat) : Option Method :=
  if mu = strBytes ("GET") then some .get
  else if mu = strBytes ("POST") then some .post
  else if mu = strBytes ("PUT") then some .put
  else if mu = strBytes ("DELETE") then some .delete
  else if mu = strBytes ("PATCH") then some .patch
  else none

/-- The napi `register_route`: uppercase the method, hash
`"<UPPER>:<path>"`, insert the callback into the store, and only then
match the method — the unsupported-method error arm returns `Err` with
the callback already stored.  `mkHandler` stands for the closure built
over the route hash that is handed to the core. -/
def napi_register_route {H C : Type} (mkHandler : Nat → H)
    (s : NapiState H C) (method path : List Nat) (cb : C) :
    Except (List Nat) Unit × NapiState H C :=
  let method_upper := toUpperBytes method
  let route_key := method_upper ++ COLON :: path
  let route_hash := fast_hash route_key
  let callbacks' := insertA route_hash (CallbackEntry.mk cb 0) s.callbacks
  match napiMethodToCore method_upper with
  | some m =>
    (Except.ok (),
      { core := register_route s.core m path (mkHandler route_hash),
        callbacks := callbacks' })
  | none =>
    (Except.error (strBytes ("Unsupported method: ") ++ method),
      { core := s.core, callbacks := callbacks' })

/-- The outcome of `rx.recv_timeout(Duration::from_secs(30))` at the
callback boundary: a delivered result, a timeout, or a channel
failure. -/
inductive RecvOutcome : Type
  | ok (data : List Nat) (status : Nat)
  | timeout
  | disconnected
  deriving DecidableEq

/-- The 30-second bound of the `recv_timeout` wait in
`invoke_callback_fast`. -/
def CALLBACK_TIMEOUT_SECS : Nat := 30

/-- `ERROR_CALLBACK_FAILED` from the napi crate. -/
def ERROR_CALLBACK_FAILED : List Nat := strBytes ("\x7b\"error\":\"Callback failed\"\x7d")

/-- `ERROR_ROUTE_NOT_FOUND` from the napi crate. -/
def ERROR_ROUTE_NOT_FOUND : List Nat := strBytes ("\x7b\"error\":\"Route not found\"\x7d")

/-- `ERROR_TIMEOUT` from the napi crate. -/
def ERROR_TIMEOUT : List Nat := strBytes ("\x7b\"error\":\"Callback timeout\"\x7d")

/-- `CallbackEntry::call` applied to the first binding of a hash:
increment the call counter. -/
def touchCb {C : Type} (k : Nat) :
    List (Nat × CallbackEntry C) → List (Nat × CallbackEntry C)
  | [] => []
  | (k', e) :: rest =>
    if k' = k then (k', ⟨e.callback, e.call_count + 1⟩) :: rest
    else (k', e) :: touchCb k rest

/-- `napi::invoke_callback_fast`: a missing callback synthesizes the
404 body; otherwise the entry is called and the bounded wait's outcome
is mapped — delivered result verbatim, timeout to the 504 body,
delivery failure to the 500 body. -/
def invoke_callback_fast {C : Type} (callbacks : List (Nat × CallbackEntry C))
    (route_hash : Nat) (recv : RecvOutcome) :
    ResponseData × List (Nat × CallbackEntry C) :=
  match lookupA route_hash callbacks with
  | none => (⟨ERROR_ROUTE_NOT_FOUND, 404⟩, callbacks)
  | some _ =>
    let callbacks' := touchCb route_hash callbacks
    match recv with
    | .ok data status => (⟨data, status⟩, callbacks')
    | .timeout => (⟨ERROR_TIMEOUT, 504⟩, callbacks')
    | .disconnected => (⟨ERROR_CALLBACK_FAILED, 500⟩, callbacks')

/-- A concrete shard at capacity (128 distinct keys, handler `0`, access
counts `1..128`), used to exercise the eviction path. -/
def fullShard : CacheShard Nat :=
  ⟨(List.range 128).map (fun i => (i, ⟨0, i + 1⟩)), none⟩

/-! ## Segment-matching side conditions (for the route-matcher claims) -/

/-- Pairwise compatibility of pattern and candidate segment lists:
equal length, and every non-parameter pattern segment is byte-equal to
the candidate segment it is aligned with. -/
def segCompat : List (List Nat) → List (List Nat) → Bool
  | [], [] => true
  | p :: ps, a :: as => (isParamSeg p || decide (p = a)) && segCompat ps as
  | _, _ => false

/-- Every candidate segment aligned with a parameter pattern segment is
non-empty (over equal-length segment lists). -/
def paramsOk : List (List Nat) → List (List Nat) → Bool
  | [], [] => true
  | p :: ps, a :: as => (!isParamSeg p || !a.isEmpty) && paramsOk ps as
  | _, _ => false

/-! ## Helper lemmas -/

theorem lookupA_insertA_self {κ α : Type} [DecidableEq κ] (k : κ) (v : α)
    (l : List (κ × α)) : lookupA k (insertA k v l) = some v := by
  induction l with
  | nil => simp [insertA, lookupA]
  | cons p rest ih =>
    obtain ⟨k', v'⟩ := p
    by_cases h : k' = k
    · simp [insertA, lookupA, h]
    · simp [insertA, lookupA, h, ih]

theorem lookupA_insertA_ne {κ α : Type} [DecidableEq κ] {k k' : κ} (v : α)
    (l : List (κ × α)) (hne : k' ≠ k) :
    lookupA k' (insertA k v l) = lookupA k' l := by
  have hkk : k ≠ k' := Ne.symm hne
  induction l with
  | nil => simp [insertA, lookupA, hkk]
  | cons p rest ih =>
    obtain ⟨k₀, v₀⟩ := p
    by_cases h : k₀ = k
    · subst h
      simp [insertA, lookupA, hkk]
    · simp [insertA, lookupA, h, ih]

theorem insertA_length_le {κ α : Type} [DecidableEq κ] (k : κ) (v : α)
    (l : List (κ × α)) : (insertA k v l).length ≤ l.length + 1 := by
  induction l with
  | nil => simp [insertA]
  | cons p rest ih =>
    obtain ⟨k', v'⟩ := p
    by_cases h : k' = k
    · simp [insertA, h]
    · simpa [insertA, h] using Nat.succ_le_succ ih

theorem splitSeg_ne_nil (c : Nat) (l : List Nat) : splitSeg c l ≠ [] := by
  cases l with
  | nil => simp [splitSeg]
  | cons b rest =>
    by_cases h : b = c
    · simp [splitSeg, h]
    · simp only [splitSeg, if_neg h]
      cases hs : splitSeg c rest with
      | nil => simp
      | cons s ss => simp

theorem mem_of_mem_splitSeg {c : Nat} {l s : List Nat}
    (hs : s ∈ splitSeg c l) {b : Nat} (hb : b ∈ s) : b ∈ l := by
  induction l generalizing s with
  | nil =>
    simp only [splitSeg, List.mem_singleton] at hs
    subst hs
    simp at hb
  | cons x rest ih =>
    by_cases h : x = c
    · simp only [splitSeg, if_pos h] at hs
      rcases List.mem_cons.mp hs with hs | hs
      · subst hs; simp at hb
      · exact List.mem_cons_of_mem x (ih hs hb)
    · simp only [splitSeg, if_neg h] at hs
      cases hr : splitSeg c rest with
      | nil => exact absurd hr (splitSeg_ne_nil c rest)
      | cons s0 ss =>
        rw [hr] at hs
        rcases List.mem_cons.mp hs with hs | hs
        · subst hs
          rcases List.mem_cons.mp hb with hb | hb
          · exact hb ▸ List.mem_cons_self x rest
          · exact List.mem_cons_of_mem x
              (ih (hr ▸ List.mem_cons_self s0 ss) hb)
        · exact List.mem_cons_of_mem x (ih (hr ▸ List.mem_cons_of_mem s0 hs) hb)

theorem isParamSeg_colon_mem {s : List Nat} (h : isParamSeg s = true) :
    COLON ∈ s := by
  cases s with
  | nil => simp [isParamSeg] at h
  | cons b rest =>
    simp only [isParamSeg, List.isEmpty_cons, Bool.not_false, Bool.true_and,
      List.headD_cons] at h
    have : b = COLON := by
      simpa using h
    exact this ▸ List.mem_cons_self b rest

theorem matchSegs_of_compat {ps as : List (List Nat)}
    (hc : segCompat ps as = true) (hp : paramsOk ps as = true) :
    matchSegs ps as = true := by
  induction ps generalizing as with
  | nil =>
    cases as with
    | nil => rfl
    | cons a as' => simp [segCompat] at hc
  | cons p ps' ih =>
    cases as with
    | nil => simp [segCompat] at hc
    | cons a as' =>
      simp only [segCompat, Bool.and_eq_true, Bool.or_eq_true,
        decide_eq_true_eq] at hc
      simp only [paramsOk, Bool.and_eq_true, Bool.or_eq_true,
        Bool.not_eq_true'] at hp
      by_cases hpar : isParamSeg p = true
      · have ha : a.isEmpty = false := by
          rcases hp.1 with h | h
          · rw [hpar] at h; exact absurd h (by simp)
          · exact h
        simp [matchSegs, hpar, ha, ih hc.2 hp.2]
      · have hpa : p = a := by
          rcases hc.1 with h | h
          · exact absurd h hpar
          · exact h
        subst hpa
        simp [matchSegs, hpar, ih hc.2 hp.2]

theorem paramsOk_of_matchSegs {ps as : List (List Nat)}
    (hm : matchSegs ps as = true) : paramsOk ps as = true := by
  induction ps generalizing as with
  | nil =>
    cases as with
    | nil => rfl
    | cons a as' => simp [matchSegs] at hm
  | cons p ps' ih =>
    cases as with
    | nil => simp [matchSegs] at hm
    | cons a as' =>
      by_cases hpar : isParamSeg p = true
      · by_cases ha : a.isEmpty = true
        · simp [matchSegs, hpar, ha] at hm
        · simp only [matchSegs, hpar, if_true, ha, if_false] at hm
          simp [paramsOk, ha, ih hm]
      · by_cases hpa : p = a
        · subst hpa
          simp only [matchSegs, hpar, if_false, if_true] at hm
          simp [paramsOk, hpar, ih hm]
        · simp [matchSegs, hpar, hpa] at hm

theorem paramsOk_refl (ps : List (List Nat)) : paramsOk ps ps = true := by
  induction ps with
  | nil => rfl
  | cons p ps' ih =>
    by_cases hpar : isParamSeg p = true
    · have : p.isEmpty = false := by
        cases p with
        | nil => simp [isParamSeg] at hpar
        | cons b rest => simp
      simp [paramsOk, hpar, this, ih]
    · simp [paramsOk, hpar, ih]

theorem segCompat_length {ps as : List (List Nat)}
    (hc : segCompat ps as = true) : ps.length = as.length := by
  induction ps generalizing as with
  | nil =>
    cases as with
    | nil => rfl
    | cons a as' => simp [segCompat] at hc
  | cons p ps' ih =>
    cases as with
    | nil => simp [segCompat] at hc
    | cons a as' =>
      simp only [segCompat, Bool.and_eq_true] at hc
      simpa using ih hc.2

theorem findIdx?_sep {m rest : List Nat} (hm : COLON ∉ m) :
    (m ++ COLON :: rest).findIdx? (fun b => b = COLON) = some m.length := by
  induction m with
  | nil => simp [List.findIdx?]
  | cons b m' ih =>
    have hb : b ≠ COLON := fun h => hm (h ▸ List.mem_cons_self b m')
    have hm' : COLON ∉ m' := fun h => hm (List.mem_cons_of_mem b h)
    rw [List.cons_append, List.findIdx?_cons]
    simp [hb, ih hm', Option.map_some]

theorem minByCount_ne_none {H : Type} (p : Nat × CacheEntry H)
    (rest : List (Nat × CacheEntry H)) : minByCount (p :: rest) ≠ none := by
  obtain ⟨k, e⟩ := p
  simp only [minByCount]
  cases minByCount rest with
  | none => simp
  | some q =>
    obtain ⟨k', c'⟩ := q
    by_cases h : c' < e.access_count <;> simp [h]

theorem minByCount_spec {H : Type} {l : List (Nat × CacheEntry H)} {k c : Nat}
    (h : minByCount l = some (k, c)) :
    ∃ l1 e l2, l = l1 ++ (k, e) :: l2 ∧ e.access_count = c
      ∧ (∀ p ∈ l1, c < p.2.access_count)
      ∧ (∀ p ∈ l, c ≤ p.2.access_count) := by
  induction l generalizing k c with
  | nil => simp [minByCount] at h
  | cons p0 rest ih =>
    obtain ⟨k0, e0⟩ := p0
    cases hr : minByCount rest with
    | none =>
      have hrest : rest = [] := by
        cases rest with
        | nil => rfl
        | cons q qs => exact absurd hr (minByCount_ne_none q qs)
      subst hrest
      simp only [minByCount, Option.some.injEq, Prod.mk.injEq] at h
      obtain ⟨hk, hc⟩ := h
      subst hk; subst hc
      exact ⟨[], e0, [], rfl, rfl, by simp, by simp⟩
    | some q =>
      obtain ⟨k', c'⟩ := q
      simp only [minByCount, hr] at h
      by_cases hlt : c' < e0.access_count
      · rw [if_pos hlt] at h
        simp only [Option.some.injEq, Prod.mk.injEq] at h
        obtain ⟨hk, hc⟩ := h
        subst hk; subst hc
        obtain ⟨l1', e', l2', hdec, hcnt, hl1, hall⟩ := ih hr
        refine ⟨(k0, e0) :: l1', e', l2', by rw [hdec, List.cons_append],
          hcnt, ?_, ?_⟩
        · intro p hp
          rcases List.mem_cons.mp hp with hp | hp
          · subst hp; exact hlt
          · exact hl1 p hp
        · intro p hp
          rcases List.mem_cons.mp hp with hp | hp
          · subst hp; exact Nat.le_of_lt hlt
          · exact hall p hp
      · rw [if_neg hlt] at h
        simp only [Option.some.injEq, Prod.mk.injEq] at h
        obtain ⟨hk, hc⟩ := h
        subst hk; subst hc
        obtain ⟨l1', e', l2', hdec, hcnt, hl1, hall⟩ := ih hr
        refine ⟨[], e0, rest, rfl, rfl, by simp, ?_⟩
        intro p hp
        rcases List.mem_cons.mp hp with hp | hp
        · subst hp; exact Nat.le_refl _
        · exact Nat.le_trans (Nat.le_of_not_lt hlt) (hall p hp)

theorem removeA_append_of_ne {κ α : Type} [DecidableEq κ] (k : κ)
    (l1 l2 : List (κ × α)) (e : α) (h : ∀ p ∈ l1, p.1 ≠ k) :
    removeA k (l1 ++ (k, e) :: l2) = l1 ++ l2 := by
  induction l1 with
  | nil => simp [removeA]
  | cons q l1' ih =>
    obtain ⟨kq, vq⟩ := q
    have hq : kq ≠ k := h (kq, vq) (List.mem_cons_self _ l1')
    simp only [List.cons_append, removeA, if_neg hq, List.append_eq]
    rw [ih (fun p hp => h p (List.mem_cons_of_mem _ hp))]

theorem parse_json_body_fast_eq_some {J : Type} (d1 d2 : List Nat → Option J)
    (ctOpt : Option (List Nat)) (body : List Nat) (v : J) :
    parse_json_body_fast d1 d2 ctOpt body = some v
      ↔ ∃ ct, ctOpt = some ct ∧ 16 ≤ ct.length
        ∧ ct.take 16 = CONTENT_TYPE_JSON_BYTES
        ∧ 2 ≤ body.length
        ∧ (d1 body = some v ∨ (d1 body = none ∧ d2 body = some v)) := by
  cases ctOpt with
  | none => simp [parse_json_body_fast]
  | some ct =>
    simp only [parse_json_body_fast, Option.some.injEq]
    by_cases hlen : ct.length < 16
    · have hnle : ¬ 16 ≤ ct.length := Nat.not_le.mpr hlen
      simp [hlen, hnle]
    · have hle : 16 ≤ ct.length := Nat.le_of_not_lt hlen
      by_cases hpre : ct.take 16 = CONTENT_TYPE_JSON_BYTES
      · by_cases hblen : body.length < 2
        · have hnble : ¬ 2 ≤ body.length := Nat.not_le.mpr hblen
          simp [hlen, hpre, hblen, hnble]
        · have hble : 2 ≤ body.length := Nat.le_of_not_lt hblen
          cases hd1 : d1 body with
          | some w => simp [hlen, hpre, hblen, hd1, hle, hble]
          | none => simp [hlen, hpre, hblen, hd1, hle, hble]
      · simp [hlen, hpre, hle]

/-! ## Claim theorems -/

/-- Claim C1 (amended): the dispatcher produces a response exactly when
the request method is in the closed set {GET, POST, PUT, DELETE, PATCH};
for every other method the conversion in `methods.rs` panics
(`panic!("Invalid method")`, modelled as `none`), so no response — in
particular no 4xx — is ever produced. -/
theorem dispatch_response_iff_supported_method {H J : Type}
    (apply : H → TachyonOptions J → ResponseData) (valid : Nat → Bool)
    (d1 d2 : List Nat → Option J) (routes : List (List Nat × TachyonRouter H))
    (snapshot : List (Nat × H)) (hot_cache : HotCacheState H) (req : Request J) :
    (handle_request_fast apply valid d1 d2 routes snapshot hot_cache req).isSome
      = (methodFromHyper req.method).isSome := by
  unfold handle_request_fast
  cases methodFromHyper req.method with
  | none => rfl
  | some m =>
    simp only [Option.isSome_some]
    split
    · rfl
    · split
      · rfl
      · split <;> rfl

/-- Claim C1, witness: the amended claim instantiated at a concrete
OPTIONS request over the empty state. -/
theorem dispatch_response_iff_supported_method_witness :
    (handle_request_fast (H := Nat) (J := Nat) (fun h _ => ⟨[h], 200⟩)
        (fun n => decide (100 ≤ n ∧ n ≤ 999)) (fun _ => none) (fun _ => none)
        [] [] (HotCacheState.empty Nat)
        ⟨.OPTIONS, strBytes ("/x"), none, []⟩).isSome
      = (methodFromHyper HyperMethod.OPTIONS).isSome :=
  dispatch_response_iff_supported_method (fun h _ => ⟨[h], 200⟩)
    (fun n => decide (100 ≤ n ∧ n ≤ 999)) (fun _ => none) (fun _ => none)
    [] [] (HotCacheState.empty Nat) ⟨.OPTIONS, strBytes ("/x"), none, []⟩

/-- Claim C1, counterexample to the claim as stated: a HEAD request (a
method outside the closed set) makes the dispatcher hit the
`panic!("Invalid method")` arm, so it produces no response at all — it
does not return a 4xx, and it does crash. -/
theorem dispatch_head_produces_no_response :
    handle_request_fast (H := Nat) (J := Nat) (fun h _ => ⟨[h], 200⟩)
        (fun n => decide (100 ≤ n ∧ n ≤ 999)) (fun _ => none) (fun _ => none)
        [] [] (HotCacheState.empty Nat) ⟨.HEAD, strBytes ("/x"), none, []⟩ = none
    ∧ methodFromHyper HyperMethod.HEAD = none :=
  ⟨rfl, rfl⟩

/-- Claim C2 (amended): for a pattern route key with parameter segments
and a candidate with the same method prefix, the same segment count and
byte-equal literal segments, `route_matches` returns `true` iff the
50-byte length-difference fail-fast passes AND every candidate segment
aligned with a parameter segment is non-empty; in particular an empty
parameter value yields `false`.  The fail-fast is thus part of the
matching semantics, not a pure pre-filter. -/
theorem route_matches_param_char (m pp ap : List Nat) (hm : COLON ∉ m)
    (hcompat : segCompat (splitSeg SLASH pp) (splitSeg SLASH ap) = true)
    (hparam : (splitSeg SLASH pp).any isParamSeg = true) :
    route_matches (m ++ COLON :: pp) (m ++ COLON :: ap) = true
      ↔ (Nat.dist (m ++ COLON :: pp).length (m ++ COLON :: ap).length ≤ 50
         ∧ paramsOk (splitSeg SLASH pp) (splitSeg SLASH ap) = true) := by
  have hfp : (m ++ COLON :: pp).findIdx? (fun b => b = COLON) = some m.length :=
    findIdx?_sep hm
  have hfa : (m ++ COLON :: ap).findIdx? (fun b => b = COLON) = some m.length :=
    findIdx?_sep hm
  have htp : (m ++ COLON :: pp).take m.length = m := List.take_left m _
  have hta : (m ++ COLON :: ap).take m.length = m := List.take_left m _
  have hdrop : ∀ l : List Nat, (m ++ COLON :: l).drop (m.length + 1) = l := by
    intro l
    have h1 : (m ++ COLON :: l) = (m ++ [COLON]) ++ l := by simp
    have hl : (m ++ [COLON]).length = m.length + 1 := by simp
    rw [h1, ← hl, List.drop_left]
  have hcontains : pp.contains COLON = true := by
    rcases List.any_eq_true.mp hparam with ⟨p, hpmem, hppar⟩
    have : COLON ∈ pp := mem_of_mem_splitSeg hpmem (isParamSeg_colon_mem hppar)
    simpa using this
  by_cases hd : 50 < Nat.dist (m ++ COLON :: pp).length (m ++ COLON :: ap).length
  · constructor
    · intro hmatch
      rw [route_matches, if_pos hd] at hmatch
      cases hmatch
    · rintro ⟨hle, -⟩
      exact absurd hd (Nat.not_lt.mpr hle)
  · have hd' :
        Nat.dist (m ++ COLON :: pp).length (m ++ COLON :: ap).length ≤ 50 :=
      Nat.le_of_not_lt hd
    rw [route_matches, if_neg hd, hfp, hfa]
    simp only [htp, hta, hdrop, ne_eq, not_true_eq_false, or_self, if_false]
    by_cases hpe : pp = ap
    · subst hpe
      simp only [if_pos rfl]
      exact ⟨fun _ => ⟨hd', paramsOk_refl _⟩, fun _ => rfl⟩
    · simp only [if_neg hpe, hcontains, Bool.not_true, if_false]
      constructor
      · intro hms
        exact ⟨hd', paramsOk_of_matchSegs hms⟩
      · rintro ⟨-, hok⟩
        exact matchSegs_of_compat hcompat hok

/-- Claim C2, counterexample to the claim as stated: the pattern
`0:/u/:id` against the candidate `0:/u/` followed by sixty `a` bytes
satisfies every condition of the claim (same method prefix, same
segment count, literal segments byte-equal, parameter segment aligned
with a non-empty candidate segment), yet `route_matches` returns
`false`, because the 50-byte length-difference fail-fast fires — it is
not a pure pre-filter. -/
theorem route_matches_prefilter_rejects_matching_pair :
    segCompat (splitSeg SLASH (strBytes ("/u/:id")))
        (splitSeg SLASH (strBytes ("/u/") ++ List.replicate 60 97)) = true
    ∧ paramsOk (splitSeg SLASH (strBytes ("/u/:id")))
        (splitSeg SLASH (strBytes ("/u/") ++ List.replicate 60 97)) = true
    ∧ (splitSeg SLASH (strBytes ("/u/:id"))).any isParamSeg = true
    ∧ route_matches (strBytes ("0:/u/:id"))
        (strBytes ("0:/u/") ++ List.replicate 60 97) = false := by
  decide

/-- Claim C2, witness: the characterization applied to the pattern
`0:/u/:id` and candidate `0:/u/42`. -/
theorem route_matches_param_char_witness :
    route_matches ([48] ++ COLON :: strBytes ("/u/:id"))
      ([48] ++ COLON :: strBytes ("/u/42")) = true :=
  (route_matches_param_char [48] (strBytes ("/u/:id")) (strBytes ("/u/42"))
    (by decide) (by decide) (by decide)).mpr ⟨by decide, by decide⟩

/-- Claim C3 (amended): the handler is always invoked, and it receives a
parsed JSON body iff the method is POST/PUT/PATCH, the content-type
header is present, at least 16 bytes long and its FIRST 16 BYTES equal
`application/json` (a prefix check, not an exact match), the body is at
least 2 bytes, and one of the two decoders succeeds; in every other
case (including decode failure) the handler runs with no body. -/
theorem execute_handler_body_char {H J : Type}
    (apply : H → TachyonOptions J → ResponseData) (valid : Nat → Bool)
    (d1 d2 : List Nat → Option J) (handler : H) (req : Request J) :
    execute_handler apply valid d1 d2 handler req
      = build_response_fast valid (apply handler
          ⟨(if bodyMethod req.method then
              parse_json_body_fast d1 d2 req.content_type req.body else none),
            none⟩)
    ∧ ∀ v, ((if bodyMethod req.method then
          parse_json_body_fast d1 d2 req.content_type req.body else none) = some v
        ↔ (bodyMethod req.method = true
           ∧ ∃ ct, req.content_type = some ct ∧ 16 ≤ ct.length
             ∧ ct.take 16 = CONTENT_TYPE_JSON_BYTES
             ∧ 2 ≤ req.body.length
             ∧ (d1 req.body = some v
                ∨ (d1 req.body = none ∧ d2 req.body = some v)))) := by
  refine ⟨rfl, fun v => ?_⟩
  by_cases hb : bodyMethod req.method
  · simp [hb, parse_json_body_fast_eq_some]
  · simp [hb]

/-- Claim C3, witness: the amended claim instantiated at a concrete
POST request with exact `application/json` content-type and body
`{}`. -/
theorem execute_handler_body_char_witness :
    execute_handler (H := Nat) (J := Nat) (fun h _ => ⟨[h], 200⟩)
        (fun n => decide (100 ≤ n ∧ n ≤ 999)) (fun _ => none)
        (fun l => if l = strBytes ("\x7b\x7d") then some 1 else none) 7
        ⟨.POST, strBytes ("/e"), some CONTENT_TYPE_JSON_BYTES, strBytes ("\x7b\x7d")⟩
      = build_response_fast (fun n => decide (100 ≤ n ∧ n ≤ 999))
          ((fun (h : Nat) (_ : TachyonOptions Nat) =>
              (⟨[h], 200⟩ : ResponseData)) 7
            ⟨(if bodyMethod HyperMethod.POST then
                parse_json_body_fast (J := Nat) (fun _ => none)
                  (fun l => if l = strBytes ("\x7b\x7d") then some 1 else none)
                  (some CONTENT_TYPE_JSON_BYTES) (strBytes ("\x7b\x7d"))
              else none), none⟩) :=
  (execute_handler_body_char (fun h _ => ⟨[h], 200⟩)
    (fun n => decide (100 ≤ n ∧ n ≤ 999)) (fun _ => none)
    (fun l => if l = strBytes ("\x7b\x7d") then some 1 else none) 7
    ⟨.POST, strBytes ("/e"), some CONTENT_TYPE_JSON_BYTES, strBytes ("\x7b\x7d")⟩).1

/-- Claim C3, counterexample to the claim as stated: with content-type
`application/json; charset=utf-8` — which is NOT exactly
`application/json` — and the 2-byte body `{}` that the fallback decoder
accepts, the body parser still hands the handler a parsed body, because
the source only compares the first 16 bytes of the header. -/
theorem parse_json_body_accepts_prefixed_content_type :
    parse_json_body_fast (J := Nat) (fun _ => none)
        (fun l => if l = strBytes ("\x7b\x7d") then some 1 else none)
        (some (strBytes ("application/json; charset=utf-8")))
        (strBytes ("\x7b\x7d")) = some 1
    ∧ strBytes ("application/json; charset=utf-8") ≠ CONTENT_TYPE_JSON_BYTES := by
  decide

/-- Claim C4: dispatch resolves the handler in strict order — (a) the
atomic snapshot by route-key hash, (b) the hot cache, (c) the registry
(exact key, then pattern scan, inside `find_route`) — the first hit
wins, and a handler found only at stage (c) is written into the hot
cache (`c'.set`) before the response is produced. -/
theorem dispatch_tiered {H J : Type}
    (apply : H → TachyonOptions J → ResponseData) (valid : Nat → Bool)
    (d1 d2 : List Nat → Option J) (routes : List (List Nat × TachyonRouter H))
    (snapshot : List (Nat × H)) (hot_cache : HotCacheState H) (req : Request J)
    (m : Method) (hm : methodFromHyper req.method = some m) :
    (∀ h, lookupA (fast_hash (buildRouteKey m.id req.path)) snapshot = some h →
        handle_request_fast apply valid d1 d2 routes snapshot hot_cache req
          = some (execute_handler apply valid d1 d2 h req, hot_cache))
    ∧ (∀ h c', lookupA (fast_hash (buildRouteKey m.id req.path)) snapshot = none →
        hot_cache.get (buildRouteKey m.id req.path) = (some h, c') →
        handle_request_fast apply valid d1 d2 routes snapshot hot_cache req
          = some (execute_handler apply valid d1 d2 h req, c'))
    ∧ (∀ h c', lookupA (fast_hash (buildRouteKey m.id req.path)) snapshot = none →
        hot_cache.get (buildRouteKey m.id req.path) = (none, c') →
        find_route routes (buildRouteKey m.id req.path) = some h →
        handle_request_fast apply valid d1 d2 routes snapshot hot_cache req
          = some (execute_handler apply valid d1 d2 h req,
              c'.set (buildRouteKey m.id req.path) h)) := by
  refine ⟨?_, ?_, ?_⟩
  · intro h hsnap
    simp [handle_request_fast, hm, hsnap]
  · intro h c' hsnap hcache
    simp [handle_request_fast, hm, hsnap, hcache]
  · intro h c' hsnap hcache hfind
    simp [handle_request_fast, hm, hsnap, hcache, hfind]

/-- Claim C4, witness: with an empty snapshot and empty hot cache, a
GET request for a route registered only in the registry resolves at
stage (c) and the resolved handler is written into the hot cache. -/
theorem dispatch_tiered_witness :
    handle_request_fast (H := Nat) (J := Nat) (fun h _ => ⟨[h], 200⟩)
      (fun n => decide (100 ≤ n ∧ n ≤ 999)) (fun _ => none) (fun _ => none)
      [(buildRouteKey Method.get.id (strBytes ("/x")), ⟨0, 7⟩)] []
      (HotCacheState.empty Nat) ⟨.GET, strBytes ("/x"), none, []⟩
    = some (execute_handler (H := Nat) (J := Nat) (fun h _ => ⟨[h], 200⟩)
        (fun n => decide (100 ≤ n ∧ n ≤ 999)) (fun _ => none) (fun _ => none) 7
        ⟨.GET, strBytes ("/x"), none, []⟩,
      (((HotCacheState.empty Nat).get
          (buildRouteKey Method.get.id (strBytes ("/x")))).2).set
        (buildRouteKey Method.get.id (strBytes ("/x"))) 7) :=
  (dispatch_tiered (fun h _ => ⟨[h], 200⟩) (fun n => decide (100 ≤ n ∧ n ≤ 999))
    (fun _ => none) (fun _ => none)
    [(buildRouteKey Method.get.id (strBytes ("/x")), ⟨0, 7⟩)] []
    (HotCacheState.empty Nat) ⟨.GET, strBytes ("/x"), none, []⟩
    Method.get rfl).2.2 7
    (((HotCacheState.empty Nat).get
        (buildRouteKey Method.get.id (strBytes ("/x")))).2)
    rfl (by decide) (by decide)

/-- Claim C5: a shard map of at most 128 entries never exceeds 128
entries under `insert`, and inserting into a shard at capacity removes
exactly one entry — the first entry (in iteration order) whose access
count is the minimum over the map — before the new entry is
inserted. -/
theorem shard_insert_bounded {H : Type} (s : CacheShard H) (hash : Nat) (h : H)
    (hnodup : (s.entries.map Prod.fst).Nodup)
    (hinv : s.entries.length ≤ MAX_ENTRIES_PER_SHARD) :
    (s.insert hash h).entries.length ≤ MAX_ENTRIES_PER_SHARD
    ∧ (s.entries.length = MAX_ENTRIES_PER_SHARD →
        ∃ k c l1 e l2,
          minByCount s.entries = some (k, c)
          ∧ s.entries = l1 ++ (k, e) :: l2
          ∧ e.access_count = c
          ∧ (∀ p ∈ l1, c < p.2.access_count)
          ∧ (∀ p ∈ s.entries, c ≤ p.2.access_count)
          ∧ (s.insert hash h).entries = insertA hash ⟨h, 1⟩ (l1 ++ l2)) := by
  by_cases hcap : MAX_ENTRIES_PER_SHARD ≤ s.entries.length
  · have hlen : s.entries.length = MAX_ENTRIES_PER_SHARD :=
      Nat.le_antisymm hinv hcap
    cases hmin : minByCount s.entries with
    | none =>
      exfalso
      cases hE : s.entries with
      | nil => rw [hE] at hlen; simp [MAX_ENTRIES_PER_SHARD] at hlen
      | cons q qs => rw [hE] at hmin; exact minByCount_ne_none q qs hmin
    | some kc =>
      obtain ⟨k, c⟩ := kc
      obtain ⟨l1, e, l2, hdec, hcnt, hl1, hall⟩ := minByCount_spec hmin
      have hne : ∀ p ∈ l1, p.1 ≠ k := by
        rw [hdec, List.map_append, List.map_cons, List.nodup_append] at hnodup
        intro p hp hpk
        exact hnodup.2.2 (List.mem_map_of_mem Prod.fst hp)
          (by rw [hpk]; exact List.mem_cons_self _ _)
      have hrem : evict_lfu s.entries = l1 ++ l2 := by
        simp only [evict_lfu, hmin]
        rw [hdec]
        exact removeA_append_of_ne k l1 l2 e hne
      have hins : (s.insert hash h).entries = insertA hash ⟨h, 1⟩ (l1 ++ l2) := by
        simp [CacheShard.insert, hcap, hrem]
      have hlen2 : (l1 ++ l2).length + 1 = MAX_ENTRIES_PER_SHARD := by
        rw [← hlen, hdec]
        simp
        omega
      constructor
      · rw [hins]
        calc (insertA hash ⟨h, 1⟩ (l1 ++ l2)).length
            ≤ (l1 ++ l2).length + 1 := insertA_length_le _ _ _
          _ = MAX_ENTRIES_PER_SHARD := hlen2
      · intro _
        exact ⟨k, c, l1, e, l2, rfl, hdec, hcnt, hl1, hall, hins⟩
  · have hlt : s.entries.length < MAX_ENTRIES_PER_SHARD := Nat.lt_of_not_le hcap
    have hins : (s.insert hash h).entries = insertA hash ⟨h, 1⟩ s.entries := by
      simp [CacheShard.insert, hcap]
    constructor
    · rw [hins]
      calc (insertA hash ⟨h, 1⟩ s.entries).length
          ≤ s.entries.length + 1 := insertA_length_le _ _ _
        _ ≤ MAX_ENTRIES_PER_SHARD := hlt
    · intro hlen
      exact absurd (hlen ▸ Nat.le_refl _) hcap

/-- Claim C5, witness: inserting a fresh key into a concrete shard at
capacity (128 entries) keeps the map within the 128-entry bound. -/
theorem shard_insert_bounded_witness :
    (fullShard.insert 999 5).entries.length ≤ MAX_ENTRIES_PER_SHARD :=
  (shard_insert_bounded fullShard 999 5
    (by
      have hkeys : fullShard.entries.map Prod.fst = List.range 128 := by
        simp [fullShard, List.map_map, Function.comp_def]
      rw [hkeys]
      exact List.nodup_range 128)
    (by simp [fullShard, MAX_ENTRIES_PER_SHARD])).1

/-- Claim C6: `register_route` publishes as the new snapshot exactly the
clone of the entire current snapshot with the new hash→handler pair
inserted; a published snapshot value is never mutated (the old binding
`s.snapshot` is untouched), every previously present binding with a
distinct hash is preserved, a lookup on the new snapshot observes the
new route, and the hot cache is untouched. -/
theorem register_route_snapshot_cow {H : Type} (s : TachyonState H) (m : Method)
    (path : List Nat) (handler : H) :
    (register_route s m path handler).snapshot
        = insertA (fast_hash (buildRouteKey m.id path)) handler s.snapshot
    ∧ lookupA (fast_hash (buildRouteKey m.id path))
        (register_route s m path handler).snapshot = some handler
    ∧ (∀ h', h' ≠ fast_hash (buildRouteKey m.id path) →
        lookupA h' (register_route s m path handler).snapshot
          = lookupA h' s.snapshot)
    ∧ (register_route s m path handler).hot_cache = s.hot_cache
    ∧ (register_route s m path handler).routes
        = insertA (buildRouteKey m.id path) ⟨m.id, handler⟩ s.routes := by
  refine ⟨rfl, lookupA_insertA_self _ _ _, ?_, rfl, rfl⟩
  intro h' hne
  exact lookupA_insertA_ne _ _ hne

/-- Claim C6, witness: registering `GET /x` over the empty state leaves
the binding of an unrelated hash unchanged. -/
theorem register_route_snapshot_cow_witness :
    lookupA 0 (register_route (H := Nat) ⟨[], [], HotCacheState.empty Nat⟩
      Method.get (strBytes ("/x")) 7).snapshot
    = lookupA 0
        (TachyonState.snapshot (H := Nat) ⟨[], [], HotCacheState.empty Nat⟩) :=
  (register_route_snapshot_cow ⟨[], [], HotCacheState.empty Nat⟩ Method.get
    (strBytes ("/x")) 7).2.2.1 0 (by decide)

/-- Claim C7: at the callback boundary the wait is bounded by 30
seconds; a timeout synthesizes status 504 with body exactly
`{"error":"Callback timeout"}`, a delivery failure status 500 with body
exactly `{"error":"Callback failed"}`, and a missing callback for the
route hash status 404 with body exactly `{"error":"Route not found"}`;
a delivered result is returned verbatim. -/
theorem invoke_callback_boundary {C : Type}
    (cbs : List (Nat × CallbackEntry C)) (hash : Nat) :
    CALLBACK_TIMEOUT_SECS = 30
    ∧ (lookupA hash cbs = none → ∀ recv,
        (invoke_callback_fast cbs hash recv).1 = ⟨ERROR_ROUTE_NOT_FOUND, 404⟩)
    ∧ (∀ e, lookupA hash cbs = some e →
        (invoke_callback_fast cbs hash .timeout).1 = ⟨ERROR_TIMEOUT, 504⟩)
    ∧ (∀ e, lookupA hash cbs = some e →
        (invoke_callback_fast cbs hash .disconnected).1
          = ⟨ERROR_CALLBACK_FAILED, 500⟩)
    ∧ (∀ e d st, lookupA hash cbs = some e →
        (invoke_callback_fast cbs hash (.ok d st)).1 = ⟨d, st⟩)
    ∧ ERROR_TIMEOUT = strBytes ("\x7b\"error\":\"Callback timeout\"\x7d")
    ∧ ERROR_CALLBACK_FAILED = strBytes ("\x7b\"error\":\"Callback failed\"\x7d")
    ∧ ERROR_ROUTE_NOT_FOUND = strBytes ("\x7b\"error\":\"Route not found\"\x7d") := by
  refine ⟨rfl, ?_, ?_, ?_, ?_, rfl, rfl, rfl⟩
  · intro hnone recv
    simp [invoke_callback_fast, hnone]
  · intro e he
    simp [invoke_callback_fast, he]
  · intro e he
    simp [invoke_callback_fast, he]
  · intro e d st he
    simp [invoke_callback_fast, he]

/-- Claim C7, witness: the three error cases at concrete inputs. -/
theorem invoke_callback_boundary_witness :
    (invoke_callback_fast (C := Nat) [(3, ⟨0, 0⟩)] 3 .timeout).1
        = ⟨ERROR_TIMEOUT, 504⟩
    ∧ (invoke_callback_fast (C := Nat) [(3, ⟨0, 0⟩)] 3 .disconnected).1
        = ⟨ERROR_CALLBACK_FAILED, 500⟩
    ∧ (invoke_callback_fast (C := Nat) [] 9 .timeout).1
        = ⟨ERROR_ROUTE_NOT_FOUND, 404⟩ :=
  ⟨(invoke_callback_boundary [(3, ⟨0, 0⟩)] 3).2.2.1 ⟨0, 0⟩ rfl,
   (invoke_callback_boundary [(3, ⟨0, 0⟩)] 3).2.2.2.1 ⟨0, 0⟩ rfl,
   (invoke_callback_boundary [] 9).2.1 rfl .timeout⟩

/-- Claim C8: when no handler resolves at any of the three stages, the
dispatcher returns the canonical 404 response with body exactly
`{"error":"Not Found"}` (21 bytes) and content-length header 21. -/
theorem dispatch_not_found {H J : Type}
    (apply : H → TachyonOptions J → ResponseData) (valid : Nat → Bool)
    (d1 d2 : List Nat → Option J) (routes : List (List Nat × TachyonRouter H))
    (snapshot : List (Nat × H)) (hot_cache : HotCacheState H) (req : Request J)
    (m : Method) (c' : HotCacheState H)
    (hm : methodFromHyper req.method = some m)
    (hsnap : lookupA (fast_hash (buildRouteKey m.id req.path)) snapshot = none)
    (hcache : hot_cache.get (buildRouteKey m.id req.path) = (none, c'))
    (hfind : find_route routes (buildRouteKey m.id req.path) = none) :
    handle_request_fast apply valid d1 d2 routes snapshot hot_cache req
      = some (not_found_response, c')
    ∧ not_found_response.status = 404
    ∧ not_found_response.body = NOTFOUND_BYTES
    ∧ NOTFOUND_BYTES = strBytes ("\x7b\"error\":\"Not Found\"\x7d")
    ∧ NOTFOUND_BYTES.length = 21
    ∧ not_found_response.content_length = 21 := by
  refine ⟨?_, rfl, rfl, rfl, by decide, rfl⟩
  simp [handle_request_fast, hm, hsnap, hcache, hfind]

/-- Claim C8, witness: a `DELETE /missing` request over the empty state
yields the canonical 404. -/
theorem dispatch_not_found_witness :
    handle_request_fast (H := Nat) (J := Nat) (fun h _ => ⟨[h], 200⟩)
      (fun n => decide (100 ≤ n ∧ n ≤ 999)) (fun _ => none) (fun _ => none)
      [] [] (HotCacheState.empty Nat) ⟨.DELETE, strBytes ("/missing"), none, []⟩
    = some (not_found_response,
        ((HotCacheState.empty Nat).get
          (buildRouteKey Method.delete.id (strBytes ("/missing")))).2) :=
  (dispatch_not_found (fun h _ => ⟨[h], 200⟩)
    (fun n => decide (100 ≤ n ∧ n ≤ 999)) (fun _ => none) (fun _ => none) [] []
    (HotCacheState.empty Nat) ⟨.DELETE, strBytes ("/missing"), none, []⟩
    Method.delete
    (((HotCacheState.empty Nat).get
        (buildRouteKey Method.delete.id (strBytes ("/missing")))).2)
    rfl rfl (by decide) rfl).1

/-- Claim C9: the binding-layer `register_route` stores the callback
(keyed by the hash of `<UPPERCASED-METHOD>:<path>`) before validating
the method, so an unsupported method returns the error yet leaves the
callback stored and the core untouched — the error path changes
state. -/
theorem napi_register_error_keeps_callback {H C : Type} (mkHandler : Nat → H)
    (s : NapiState H C) (method path : List Nat) (cb : C)
    (hbad : napiMethodToCore (toUpperBytes method) = none) :
    (napi_register_route mkHandler s method path cb).1
        = Except.error (strBytes ("Unsupported method: ") ++ method)
    ∧ (napi_register_route mkHandler s method path cb).2.callbacks
        = insertA (fast_hash (toUpperBytes method ++ COLON :: path))
            ⟨cb, 0⟩ s.callbacks
    ∧ lookupA (fast_hash (toUpperBytes method ++ COLON :: path))
        (napi_register_route mkHandler s method path cb).2.callbacks
        = some ⟨cb, 0⟩
    ∧ (napi_register_route mkHandler s method path cb).2.core = s.core := by
  refine ⟨?_, ?_, ?_, ?_⟩
  · simp only [napi_register_route, hbad]
  · simp only [napi_register_route, hbad]
  · simp only [napi_register_route, hbad]
    exact lookupA_insertA_self _ _ _
  · simp only [napi_register_route, hbad]

/-- Claim C9, witness: registering method `head` (uppercased to `HEAD`,
unsupported) over the empty state returns the error while the callback
is found in the store under the hash of `HEAD:/x`. -/
theorem napi_register_error_keeps_callback_witness :
    (napi_register_route (H := Nat) (C := Nat) (fun _ => 0)
        ⟨⟨[], [], HotCacheState.empty Nat⟩, []⟩ (strBytes ("head"))
        (strBytes ("/x")) 5).1
      = Except.error (strBytes ("Unsupported method: ") ++ strBytes ("head"))
    ∧ lookupA
        (fast_hash (toUpperBytes (strBytes ("head")) ++ COLON :: strBytes ("/x")))
        (napi_register_route (H := Nat) (C := Nat) (fun _ => 0)
          ⟨⟨[], [], HotCacheState.empty Nat⟩, []⟩ (strBytes ("head"))
          (strBytes ("/x")) 5).2.callbacks
      = some ⟨5, 0⟩ :=
  ⟨(napi_register_error_keeps_callback (fun _ => 0)
      ⟨⟨[], [], HotCacheState.empty Nat⟩, []⟩ (strBytes ("head"))
      (strBytes ("/x")) 5 (by decide)).1,
   (napi_register_error_keeps_callback (fun _ => 0)
      ⟨⟨[], [], HotCacheState.empty Nat⟩, []⟩ (strBytes ("head"))
      (strBytes ("/x")) 5 (by decide)).2.2.1⟩

/-- Claim C10: the wire response carries the handler's status code
exactly when `StatusCode::from_u16` (abstracted by its acceptance set
`valid`, which contains 200 and 404) accepts it, and silently falls
back to 200 OK otherwise; body and content-length mirror the handler's
payload. -/
theorem build_response_status_map (valid : Nat → Bool) (r : ResponseData)
    (h200 : valid 200 = true) (h404 : valid 404 = true) :
    (build_response_fast valid r).status
        = (if valid r.status_code = true then r.status_code else 200)
    ∧ (build_response_fast valid r).body = r.data
    ∧ (build_response_fast valid r).content_length = r.data.length := by
  refine ⟨?_, rfl, rfl⟩
  simp only [build_response_fast, statusCodeFromU16]
  by_cases h1 : r.status_code = 200
  · simp [h1, h200]
  · by_cases h2 : r.status_code = 404
    · simp [h1, h2, h404]
    · by_cases hv : valid r.status_code = true <;> simp [h1, h2, hv]

/-- Claim C10, witness: with hyper's documented acceptance set
(100..=999), status 1000 is invalid and is sent as 200, while 418 is
valid and sent verbatim. -/
theorem build_response_status_map_witness :
    (build_response_fast (fun n => decide (100 ≤ n ∧ n ≤ 999))
        ⟨strBytes ("x"), 1000⟩).status
      = (if (fun n => decide (100 ≤ n ∧ n ≤ 999)) 1000 = true then 1000 else 200)
    ∧ (build_response_fast (fun n => decide (100 ≤ n ∧ n ≤ 999))
        ⟨strBytes ("x"), 418⟩).status
      = (if (fun n => decide (100 ≤ n ∧ n ≤ 999)) 418 = true then 418 else 200) :=
  ⟨(build_response_status_map (fun n => decide (100 ≤ n ∧ n ≤ 999))
      ⟨strBytes ("x"), 1000⟩ (by decide) (by decide)).1,
   (build_response_status_map (fun n => decide (100 ≤ n ∧ n ≤ 999))
      ⟨strBytes ("x"), 418⟩ (by decide) (by decide)).1⟩

end Tachyon
